import Mathlib

/-!
Shallow embedding of the team-balancing engine in
`src/roundnet/data/team_generator.py` (with the data model from
`src/roundnet/data/models.py`), and proofs about it.

Conventions of the embedding:
* Python strings are `String`; Python ints are `Nat`/`Int`; the real-valued
  arithmetic of the balance scorer is modelled exactly over `ℚ`.
* The Python dicts built in `TeamGenerator.__init__` are modelled as total
  lookup functions built by a left fold over the input lists, so that a later
  entry overwrites an earlier one exactly as a dict assignment does.
* `random.shuffle` is the engine's only nondeterminism; the shuffled list is
  passed in as an explicit argument, and theorems about the `random` strategy
  hypothesise that it is a permutation of the roster.
* A Python function that can raise is embedded as `Except String`; the
  message text records which exception the source raises.
* Python's truthiness test `if best_partner:` in `partnership_balanced_teams`
  is falsy both for `None` and for the empty string, and is embedded as such.
-/

namespace Roundnet

/-- `Player` dataclass from `models.py` (the fields the engine reads). -/
structure Player where
  id : String
  skill_level : Int
  total_wins : Nat
  total_games : Nat
deriving DecidableEq, Repr

/-- `Player.win_rate`: `total_wins / total_games` if `total_games > 0` else `0.0`. -/
def Player.win_rate (p : Player) : ℚ :=
  if p.total_games > 0 then (p.total_wins : ℚ) / (p.total_games : ℚ) else 0

/-- `Partnership` dataclass from `models.py` (the fields the engine reads). -/
structure Partnership where
  player_a_id : String
  player_b_id : String
  times_together : Nat
  wins_together : Nat
deriving DecidableEq, Repr

/-- The dict comprehension `{p.id: p for p in players}` in
`TeamGenerator.__init__`: lookup returns the last player in the list with the
given id. -/
def lookupPlayer (players : List Player) : String → Option Player :=
  players.foldl (fun acc p => fun pid => if p.id = pid then some p else acc pid)
    (fun _ => none)

/-- `TeamGenerator._build_partnership_dict`: for each record, both orderings
of the pair are mapped to that record; later records overwrite earlier ones. -/
def build_partnership_dict (partnerships : List Partnership) :
    String × String → Option Partnership :=
  partnerships.foldl
    (fun acc p => fun k =>
      if k = (p.player_a_id, p.player_b_id) ∨ k = (p.player_b_id, p.player_a_id)
      then some p else acc k)
    (fun _ => none)

/-- `TeamGenerator.get_partnership_count`: `times_together` of the stored
record for the (ordered) key, else `0`. -/
def get_partnership_count (d : String × String → Option Partnership)
    (player_a_id player_b_id : String) : Nat :=
  match d (player_a_id, player_b_id) with
  | some p => p.times_together
  | none => 0

/-- The pairing loop of `random_teams`:
`for i in range(0, len(s), 2): teams.append([s[i], s[i+1]])` on an even list. -/
def pairUp : List String → List (List String)
  | a :: b :: rest => [a, b] :: pairUp rest
  | _ => []

/-- `TeamGenerator.random_teams`. The result of `random.shuffle` on a copy of
`player_ids` is passed in as `shuffled`. -/
def random_teams (shuffled : List String) (player_ids : List String) :
    Except String (List (List String)) :=
  if player_ids.length % 2 ≠ 0 then
    Except.error "ValueError: Number of players must be even for team generation"
  else
    Except.ok (pairUp shuffled)

/-- Stable insert for descending insertion sort: keep an earlier-sorted
element in front only while its key is strictly greater, so that elements
with equal keys stay in input order, exactly as Python's stable
`sorted(..., reverse=True)`. -/
def insertDesc {K : Type} [LinearOrder K] (key : String → K) (x : String) :
    List String → List String
  | [] => [x]
  | y :: ys => if key x < key y then y :: insertDesc key x ys else x :: y :: ys

/-- Stable descending sort by a key; agrees with Python
`sorted(ids, key=key, reverse=True)` because both are stable. -/
def sortDesc {K : Type} [LinearOrder K] (key : String → K) :
    List String → List String
  | [] => []
  | x :: xs => insertDesc key x (sortDesc key xs)

/-- The extreme-pairing loop of `skill_balanced_teams` and
`win_rate_balanced_teams`: team `i` is `[sorted[i], sorted[-(i+1)]]` for
`i < len(sorted) // 2`; `sorted[-(i+1)]` is position `i` of the reversed
list. -/
def pairExtremes (l : List String) : List (List String) :=
  ((l.zip l.reverse).take (l.length / 2)).map (fun p => [p.1, p.2])

/-- `TeamGenerator.skill_balanced_teams`. A roster id absent from the players
dict makes Python's `sorted` key function raise `KeyError`. -/
def skill_balanced_teams (players : List Player) (player_ids : List String) :
    Except String (List (List String)) :=
  if player_ids.length % 2 ≠ 0 then
    Except.error "ValueError: Number of players must be even for team generation"
  else if player_ids.any (fun pid => (lookupPlayer players pid).isNone) then
    Except.error "KeyError"
  else
    Except.ok (pairExtremes (sortDesc
      (fun pid => ((lookupPlayer players pid).map Player.skill_level).getD 0)
      player_ids))

/-- `TeamGenerator.win_rate_balanced_teams`: same shape as
`skill_balanced_teams` with the `win_rate` sort key. -/
def win_rate_balanced_teams (players : List Player) (player_ids : List String) :
    Except String (List (List String)) :=
  if player_ids.length % 2 ≠ 0 then
    Except.error "ValueError: Number of players must be even for team generation"
  else if player_ids.any (fun pid => (lookupPlayer players pid).isNone) then
    Except.error "KeyError"
  else
    Except.ok (pairExtremes (sortDesc
      (fun pid => ((lookupPlayer players pid).map Player.win_rate).getD 0)
      player_ids))

/-- The running-minimum scan of `partnership_balanced_teams`: starting from
candidate `best` with count `bcnt`, replace the candidate exactly when a later
pool element has a strictly smaller partnership count with `a`. -/
def bpGo (d : String × String → Option Partnership) (a : String)
    (best : String) (bcnt : Nat) : List String → String
  | [] => best
  | b :: rest =>
    if get_partnership_count d a b < bcnt then
      bpGo d a b (get_partnership_count d a b) rest
    else
      bpGo d a best bcnt rest

/-- The `while len(available_players) >= 2` loop of
`partnership_balanced_teams`, with an explicit fuel bound on the number of
iterations (each iteration strictly shrinks the pool, so any fuel of at
least the pool length is ample): pop the first player, scan for the partner
with the least partnership count (initial running minimum is infinity, so
the first candidate always wins), and append the pair only if the chosen
partner is truthy (non-empty string). -/
def pbLoopF (d : String × String → Option Partnership) :
    Nat → List String → List (List String)
  | _, [] => []
  | _, [_] => []
  | 0, _ :: _ :: _ => []
  | fuel + 1, a :: b :: rest =>
    let best := bpGo d a b (get_partnership_count d a b) rest
    if best = "" then
      pbLoopF d fuel (b :: rest)
    else
      [a, best] :: pbLoopF d fuel ((b :: rest).erase best)

/-- The loop of `partnership_balanced_teams`, run with ample fuel. -/
def pbLoop (d : String × String → Option Partnership)
    (l : List String) : List (List String) :=
  pbLoopF d l.length l

/-- `TeamGenerator.partnership_balanced_teams`. -/
def partnership_balanced_teams (d : String × String → Option Partnership)
    (player_ids : List String) : Except String (List (List String)) :=
  if player_ids.length % 2 ≠ 0 then
    Except.error "ValueError: Number of players must be even for team generation"
  else
    Except.ok (pbLoop d player_ids)

/-- `TeamGenerator.generate_teams`: validates roster size and parity, then
dispatches on the strategy name. `shuffled` feeds the `random` strategy. -/
def generate_teams (players : List Player)
    (partnerships : List Partnership) (shuffled : List String)
    (player_ids : List String) (algorithm : String) :
    Except String (List (List String)) :=
  if player_ids.length < 2 then
    Except.error "ValueError: Need at least 2 players to generate teams"
  else if player_ids.length % 2 ≠ 0 then
    Except.error "ValueError: Number of players must be even for team generation"
  else if algorithm = "random" then
    random_teams shuffled player_ids
  else if algorithm = "skill_balanced" then
    skill_balanced_teams players player_ids
  else if algorithm = "partnership_balanced" then
    partnership_balanced_teams (build_partnership_dict partnerships) player_ids
  else if algorithm = "win_rate_balanced" then
    win_rate_balanced_teams players player_ids
  else
    Except.error "ValueError: Unknown algorithm"

/-- Result record of `calculate_team_balance_score`. -/
structure BalanceMetrics where
  skill_variance : ℚ
  win_rate_variance : ℚ
  partnership_variance : ℚ
  overall_score : ℚ
deriving DecidableEq, Repr

/-- Population variance of a list of rationals, as computed inline by
`calculate_team_balance_score` when the list has more than one element
(otherwise the metric keeps its initial `0.0`). -/
def popVariance (xs : List ℚ) : ℚ :=
  if xs.length > 1 then
    let m := xs.sum / (xs.length : ℚ)
    (xs.map (fun x => (x - m) ^ 2)).sum / (xs.length : ℚ)
  else 0

/-- `TeamGenerator.calculate_team_balance_score`. An empty partition returns
the all-zero metrics before any arithmetic; otherwise an empty team raises
`ZeroDivisionError` and an unknown player id raises `KeyError`. -/
def calculate_team_balance_score (players : List Player)
    (d : String × String → Option Partnership)
    (teams : List (List String)) : Except String BalanceMetrics :=
  if teams = [] then
    Except.ok ⟨0, 0, 0, 0⟩
  else if teams.any (fun t => t.isEmpty) then
    Except.error "ZeroDivisionError"
  else if (teams.flatten).any (fun pid => (lookupPlayer players pid).isNone) then
    Except.error "KeyError"
  else
    let skill := fun pid => (((lookupPlayer players pid).map Player.skill_level).getD 0 : ℚ)
    let wr := fun pid => ((lookupPlayer players pid).map Player.win_rate).getD 0
    let team_skills := teams.map (fun t => (t.map skill).sum / (t.length : ℚ))
    let team_win_rates := teams.map (fun t => (t.map wr).sum / (t.length : ℚ))
    let pcounts := (teams.filter (fun t => t.length ≥ 2)).map
      (fun t => (get_partnership_count d (t.headD "") (t.tail.headD "") : ℚ))
    let sv := popVariance team_skills
    let wv := popVariance team_win_rates
    let pv := popVariance pcounts
    Except.ok ⟨sv, wv, pv,
      (2/5) * (1 / (1 + sv)) + (2/5) * (1 / (1 + wv)) + (1/5) * (1 / (1 + pv))⟩

/-! ### Reference formulations

`minOfList`/`amendedBestPartner`/`amendedLoop` restate the greedy partner
choice declaratively (first pool element attaining the minimum partnership
count), for comparison with the scan in the source. The `spec...` definitions
embed the round-robin greedy procedure described in the specification, to be
compared with the sequential one in the source. -/

/-- Minimum of a list of naturals, `none` on the empty list. -/
def minOfList : List Nat → Option Nat
  | [] => none
  | x :: xs =>
    match minOfList xs with
    | none => some x
    | some m => some (min x m)

/-- Declarative partner choice: the first pool element whose partnership
count with `a` attains the minimum over the pool. -/
def amendedBestPartner (d : String × String → Option Partnership) (a : String)
    (pool : List String) : Option String :=
  match minOfList (pool.map (get_partnership_count d a)) with
  | none => none
  | some m => pool.find? (fun b => get_partnership_count d a b = m)

/-- The amended description of the `partnership_balanced` loop: repeatedly
pop the first pool player as seed, pair it with the first remaining player
attaining the minimum partnership count with the seed, and drop the pair
silently when the chosen partner is the empty string. -/
def amendedLoop (d : String × String → Option Partnership) :
    List String → List (List String)
  | [] => []
  | [_] => []
  | a :: b :: rest =>
    match amendedBestPartner d a (b :: rest) with
    | none => []
    | some best =>
      if best = "" then
        amendedLoop d (b :: rest)
      else
        [a, best] :: amendedLoop d ((b :: rest).erase best)
termination_by l => l.length
decreasing_by
  · simp
  · have h := List.length_erase_le best (b :: rest)
    simp at h ⊢
    omega

/-- The amended `partnership_balanced_teams`: even-size guard, then
`amendedLoop`. -/
def amendedPartnershipTeams (d : String × String → Option Partnership)
    (player_ids : List String) : Except String (List (List String)) :=
  if player_ids.length % 2 ≠ 0 then
    Except.error "ValueError: Number of players must be even for team generation"
  else
    Except.ok (amendedLoop d player_ids)

/-- Modelled from the spec (§4.4 `partnership_balanced`): the sum of pairwise
partnership counts of candidate `b` with all current members of a team. -/
def sumCounts (d : String × String → Option Partnership) (team : List String)
    (b : String) : Nat :=
  (team.map (fun m => get_partnership_count d m b)).sum

/-- Modelled from the spec: the remaining-pool player whose `sumCounts` with
the team is smallest, ties broken by pool order (first encountered wins). -/
def specArgminSum (d : String × String → Option Partnership)
    (team : List String) (pool : List String) : Option String :=
  match minOfList (pool.map (sumCounts d team)) with
  | none => none
  | some m => pool.find? (fun b => sumCounts d team b = m)

/-- Modelled from the spec: one team's turn in the round-robin — an empty
team is seeded by popping the first remaining pool player, a non-empty team
receives its `specArgminSum` player. -/
def specSeedOrPick (d : String × String → Option Partnership)
    (team : List String) (pool : List String) :
    List String × List String :=
  match pool with
  | [] => (team, [])
  | p :: rest =>
    match team with
    | [] => ([p], rest)
    | _ =>
      match specArgminSum d team (p :: rest) with
      | none => (team, p :: rest)
      | some c => (team ++ [c], (p :: rest).erase c)

/-- Modelled from the spec: one full left-to-right round over the teams. -/
def specOneRound (d : String × String → Option Partnership) :
    List (List String) → List String → List (List String) × List String
  | [], pool => ([], pool)
  | t :: ts, pool =>
    let tp := specSeedOrPick d t pool
    let rec' := specOneRound d ts tp.2
    (tp.1 :: rec'.1, rec'.2)

/-- Modelled from the spec: repeat rounds while at least as many players
remain as there are teams; `fuel` bounds the number of rounds and is passed
ample by the caller. -/
def specRounds (d : String × String → Option Partnership) :
    Nat → List (List String) → List String →
    List (List String) × List String
  | 0, teams, pool => (teams, pool)
  | fuel + 1, teams, pool =>
    if teams.length ≤ pool.length ∧ 0 < teams.length then
      let r := specOneRound d teams pool
      specRounds d fuel r.1 r.2
    else
      (teams, pool)

/-- Modelled from the spec: leftover players are dealt round-robin onto the
teams in order. -/
def dealLeftovers : List (List String) → List String → List (List String)
  | [], _ => []
  | t :: ts, [] => t :: ts
  | t :: ts, p :: rest => (t ++ [p]) :: dealLeftovers ts rest

/-- Modelled from the spec (§4.2 `partnership_balanced`): the round-robin
greedy reference procedure over `numTeams` initially empty teams. -/
def specPartnershipReference (d : String × String → Option Partnership)
    (numTeams : Nat) (roster : List String) : List (List String) :=
  let r := specRounds d roster.length (List.replicate numTeams []) roster
  dealLeftovers r.1 r.2

/-! ### Lemmas about the partnership index -/

/-- The predicate deciding whether a `Partnership` record is about the
unordered pair `{a, b}` (in either stored orientation). -/
def matchesPair (a b : String) (p : Partnership) : Bool :=
  (p.player_a_id = a && p.player_b_id = b) ||
    (p.player_a_id = b && p.player_b_id = a)

/-- One dict-update step of `_build_partnership_dict`. -/
def pdStep (acc : String × String → Option Partnership) (p : Partnership) :
    String × String → Option Partnership :=
  fun k =>
    if k = (p.player_a_id, p.player_b_id) ∨ k = (p.player_b_id, p.player_a_id)
    then some p else acc k

theorem build_partnership_dict_eq_foldl (partnerships : List Partnership) :
    build_partnership_dict partnerships =
      partnerships.foldl pdStep (fun _ => none) := rfl

theorem foldl_pdStep_swap (l : List Partnership)
    (acc : String × String → Option Partnership)
    (hacc : ∀ a b, acc (a, b) = acc (b, a)) (a b : String) :
    (l.foldl pdStep acc) (a, b) = (l.foldl pdStep acc) (b, a) := by
  induction l generalizing acc with
  | nil => exact hacc a b
  | cons p l ih =>
    refine ih (pdStep acc p) (fun x y => ?_)
    unfold pdStep
    have hiff :
        ((x, y) = (p.player_a_id, p.player_b_id) ∨
          (x, y) = (p.player_b_id, p.player_a_id)) ↔
        ((y, x) = (p.player_a_id, p.player_b_id) ∨
          (y, x) = (p.player_b_id, p.player_a_id)) := by
      constructor <;> (rintro (h | h) <;> simp [Prod.ext_iff] at h ⊢ <;> tauto)
    by_cases hc : (x, y) = (p.player_a_id, p.player_b_id) ∨
        (x, y) = (p.player_b_id, p.player_a_id)
    · rw [if_pos hc, if_pos (hiff.mp hc)]
    · rw [if_neg hc, if_neg (fun h => hc (hiff.mpr h))]
      exact hacc x y

theorem build_partnership_dict_swap (partnerships : List Partnership)
    (a b : String) :
    build_partnership_dict partnerships (a, b) =
      build_partnership_dict partnerships (b, a) :=
  foldl_pdStep_swap partnerships (fun _ => none) (fun _ _ => rfl) a b

theorem foldl_pdStep_lookup (l : List Partnership)
    (acc : String × String → Option Partnership) (a b : String) :
    (l.foldl pdStep acc) (a, b) =
      (l.reverse.find? (matchesPair a b)).or (acc (a, b)) := by
  induction l generalizing acc with
  | nil => simp
  | cons p l ih =>
    have hstep : pdStep acc p (a, b) =
        (if matchesPair a b p then some p else none).or (acc (a, b)) := by
      unfold pdStep matchesPair
      by_cases hc : (a, b) = (p.player_a_id, p.player_b_id) ∨
          (a, b) = (p.player_b_id, p.player_a_id)
      · rw [if_pos hc]
        have : ((p.player_a_id = a && p.player_b_id = b) ||
            (p.player_a_id = b && p.player_b_id = a)) = true := by
          rcases hc with h | h <;> simp [Prod.ext_iff] at h <;>
            simp [h.1, h.2]
        rw [this]
        rfl
      · rw [if_neg hc]
        have : ((p.player_a_id = a && p.player_b_id = b) ||
            (p.player_a_id = b && p.player_b_id = a)) = false := by
          rw [Bool.or_eq_false_iff]
          constructor <;> rw [Bool.and_eq_false_iff]
          · by_cases h1 : p.player_a_id = a
            · right
              rw [decide_eq_false_iff_not]
              intro h2
              exact hc (Or.inl (by simp [h1, h2]))
            · left
              rw [decide_eq_false_iff_not]
              exact h1
          · by_cases h1 : p.player_a_id = b
            · right
              rw [decide_eq_false_iff_not]
              intro h2
              exact hc (Or.inr (by simp [h1, h2]))
            · left
              rw [decide_eq_false_iff_not]
              exact h1
        rw [this]
        rfl
    calc (l.foldl pdStep (pdStep acc p)) (a, b)
        = (l.reverse.find? (matchesPair a b)).or (pdStep acc p (a, b)) :=
          ih (pdStep acc p)
      _ = (l.reverse.find? (matchesPair a b)).or
            (((if matchesPair a b p then some p else none).or (acc (a, b)))) := by
          rw [hstep]
      _ = ((p :: l).reverse.find? (matchesPair a b)).or (acc (a, b)) := by
          rw [List.reverse_cons, List.find?_append, Option.or_assoc]
          congr 1
          cases hm : matchesPair a b p <;> simp [List.find?, hm]

theorem build_partnership_dict_lookup (partnerships : List Partnership)
    (a b : String) :
    build_partnership_dict partnerships (a, b) =
      partnerships.reverse.find? (matchesPair a b) := by
  rw [build_partnership_dict_eq_foldl,
    foldl_pdStep_lookup partnerships (fun _ => none) a b]
  simp

/-! ### Lemmas about the pairing loops -/

theorem pairUp_sizes : ∀ (l : List String), ∀ t ∈ pairUp l, t.length = 2
  | [] => by simp [pairUp]
  | [a] => by simp [pairUp]
  | a :: b :: rest => by
    intro t ht
    simp only [pairUp, List.mem_cons] at ht
    rcases ht with h | h
    · simp [h]
    · exact pairUp_sizes rest t h

theorem pairUp_length : ∀ (l : List String), (pairUp l).length = l.length / 2
  | [] => by simp [pairUp]
  | [a] => by simp [pairUp]
  | a :: b :: rest => by
    simp only [pairUp, List.length_cons, pairUp_length rest]
    omega

theorem pairUp_flatten : ∀ (l : List String), l.length % 2 = 0 →
    (pairUp l).flatten = l
  | [] => by simp [pairUp]
  | [a] => by simp
  | a :: b :: rest => by
    intro h
    simp only [List.length_cons] at h
    simp only [pairUp, List.flatten_cons, List.cons_append, List.nil_append,
      pairUp_flatten rest (by omega)]

theorem insertDesc_perm {K : Type} [LinearOrder K] (key : String → K)
    (x : String) : ∀ (l : List String), (insertDesc key x l).Perm (x :: l)
  | [] => List.Perm.refl _
  | y :: ys => by
    simp only [insertDesc]
    by_cases h : key x < key y
    · rw [if_pos h]
      exact ((insertDesc_perm key x ys).cons y).trans (List.Perm.swap x y ys)
    · rw [if_neg h]

theorem sortDesc_perm {K : Type} [LinearOrder K] (key : String → K) :
    ∀ (l : List String), (sortDesc key l).Perm l
  | [] => List.Perm.refl _
  | x :: xs =>
    (insertDesc_perm key x (sortDesc key xs)).trans
      ((sortDesc_perm key xs).cons x)

theorem sortDesc_length {K : Type} [LinearOrder K] (key : String → K)
    (l : List String) : (sortDesc key l).length = l.length :=
  (sortDesc_perm key l).length_eq

theorem pairExtremes_nil : pairExtremes [] = [] := rfl

theorem pairExtremes_singleton (a : String) : pairExtremes [a] = [] := by
  simp [pairExtremes]

theorem pairExtremes_cons_concat (m : List String) (a z : String) :
    pairExtremes (a :: (m ++ [z])) = [a, z] :: pairExtremes m := by
  unfold pairExtremes
  have hlen : (a :: (m ++ [z])).length / 2 = m.length / 2 + 1 := by
    simp only [List.length_cons, List.length_append, List.length_singleton,
      List.length_nil]
    omega
  have hrev : (a :: (m ++ [z])).reverse = z :: (m.reverse ++ [a]) := by
    simp
  rw [hlen, hrev]
  have hzip : (m ++ [z]).zip (m.reverse ++ [a]) =
      m.zip m.reverse ++ [(z, a)] := by
    rw [List.zip_append (by simp)]
    rfl
  simp only [List.zip_cons_cons, hzip, List.take_succ_cons, List.map_cons]
  congr 1
  rw [List.take_append_of_le_length (by simp [List.length_zip]; omega)]

theorem pairExtremes_sizes (l : List String) :
    ∀ t ∈ pairExtremes l, t.length = 2 := by
  induction l using List.bidirectionalRec with
  | nil => simp [pairExtremes_nil]
  | singleton a => simp [pairExtremes_singleton]
  | cons_append a m z ih =>
    intro t ht
    rw [pairExtremes_cons_concat] at ht
    simp only [List.mem_cons] at ht
    rcases ht with h | h
    · simp [h]
    · exact ih t h

theorem pairExtremes_length (l : List String) :
    (pairExtremes l).length = l.length / 2 := by
  induction l using List.bidirectionalRec with
  | nil => simp [pairExtremes_nil]
  | singleton a => simp [pairExtremes_singleton]
  | cons_append a m z ih =>
    rw [pairExtremes_cons_concat]
    simp only [List.length_cons, List.length_append, List.length_singleton,
      List.length_nil, ih]
    omega

theorem pairExtremes_flatten_perm (l : List String) :
    l.length % 2 = 0 → ((pairExtremes l).flatten).Perm l := by
  induction l using List.bidirectionalRec with
  | nil => simp [pairExtremes_nil]
  | singleton a => intro h; simp at h
  | cons_append a m z ih =>
    intro h
    have hm : m.length % 2 = 0 := by
      simp only [List.length_cons, List.length_append,
        List.length_singleton, List.length_nil] at h
      omega
    rw [pairExtremes_cons_concat]
    simp only [List.flatten_cons, List.cons_append, List.nil_append]
    refine List.Perm.cons a ?_
    refine ((ih hm).cons z).trans ?_
    exact (List.perm_append_singleton z m).symm

theorem bpGo_mem (d : String × String → Option Partnership) (a : String) :
    ∀ (l : List String) (best : String) (bcnt : Nat),
      bpGo d a best bcnt l ∈ best :: l
  | [], best, bcnt => by simp [bpGo]
  | b :: rest, best, bcnt => by
    simp only [bpGo]
    by_cases h : get_partnership_count d a b < bcnt
    · rw [if_pos h]
      have := bpGo_mem d a rest b (get_partnership_count d a b)
      simp only [List.mem_cons] at this ⊢
      tauto
    · rw [if_neg h]
      have := bpGo_mem d a rest best bcnt
      simp only [List.mem_cons] at this ⊢
      tauto

theorem pbLoopF_nil (d : String × String → Option Partnership)
    (fuel : Nat) : pbLoopF d fuel [] = [] := by
  cases fuel <;> rfl

theorem pbLoopF_singleton (d : String × String → Option Partnership)
    (fuel : Nat) (a : String) : pbLoopF d fuel [a] = [] := by
  cases fuel <;> rfl

theorem pbLoopF_succ_cons (d : String × String → Option Partnership)
    (fuel : Nat) (a b : String) (rest : List String) :
    pbLoopF d (fuel + 1) (a :: b :: rest) =
      if bpGo d a b (get_partnership_count d a b) rest = "" then
        pbLoopF d fuel (b :: rest)
      else
        [a, bpGo d a b (get_partnership_count d a b) rest] ::
          pbLoopF d fuel ((b :: rest).erase
            (bpGo d a b (get_partnership_count d a b) rest)) := rfl

theorem pbLoopF_congr (d : String × String → Option Partnership) :
    ∀ (f1 f2 : Nat) (l : List String), l.length ≤ f1 → l.length ≤ f2 →
      pbLoopF d f1 l = pbLoopF d f2 l := by
  intro f1
  induction f1 with
  | zero =>
    intro f2 l h1 h2
    have hl : l = [] := by cases l <;> simp_all
    subst hl
    rw [pbLoopF_nil, pbLoopF_nil]
  | succ f1 ih =>
    intro f2 l h1 h2
    match l with
    | [] => rw [pbLoopF_nil, pbLoopF_nil]
    | [a] => rw [pbLoopF_singleton, pbLoopF_singleton]
    | a :: b :: rest =>
      simp only [List.length_cons] at h1 h2
      match f2 with
      | 0 => omega
      | f2 + 1 =>
        rw [pbLoopF_succ_cons, pbLoopF_succ_cons]
        have herase := List.length_erase_le
          (bpGo d a b (get_partnership_count d a b) rest) (b :: rest)
        simp only [List.length_cons] at herase
        by_cases h0 : bpGo d a b (get_partnership_count d a b) rest = ""
        · rw [if_pos h0, if_pos h0]
          exact ih f2 (b :: rest) (by simp; omega) (by simp; omega)
        · rw [if_neg h0, if_neg h0]
          congr 1
          exact ih f2 _ (by omega) (by omega)

theorem pbLoop_cons_eq (d : String × String → Option Partnership)
    (a b : String) (rest : List String) :
    pbLoop d (a :: b :: rest) =
      if bpGo d a b (get_partnership_count d a b) rest = "" then
        pbLoop d (b :: rest)
      else
        [a, bpGo d a b (get_partnership_count d a b) rest] ::
          pbLoop d ((b :: rest).erase
            (bpGo d a b (get_partnership_count d a b) rest)) := by
  unfold pbLoop
  simp only [List.length_cons]
  rw [pbLoopF_succ_cons]
  have herase := List.length_erase_le
    (bpGo d a b (get_partnership_count d a b) rest) (b :: rest)
  simp only [List.length_cons] at herase
  by_cases h0 : bpGo d a b (get_partnership_count d a b) rest = ""
  · rw [if_pos h0, if_pos h0]
  · rw [if_neg h0, if_neg h0]
    congr 1
    exact pbLoopF_congr d (rest.length + 1) _ _ (by omega) (by omega)

theorem bpGo_mem_tail (d : String × String → Option Partnership)
    (a b : String) (rest : List String) :
    bpGo d a b (get_partnership_count d a b) rest ∈ b :: rest :=
  bpGo_mem d a rest b (get_partnership_count d a b)

theorem pbLoop_sizes (d : String × String → Option Partnership) :
    ∀ (l : List String), ∀ t ∈ pbLoop d l, t.length = 2
  | [] => by
    intro t ht
    simp [pbLoop, pbLoopF_nil] at ht
  | [a] => by
    intro t ht
    simp [pbLoop, pbLoopF_singleton] at ht
  | a :: b :: rest => by
    intro t ht
    rw [pbLoop_cons_eq] at ht
    by_cases h0 : bpGo d a b (get_partnership_count d a b) rest = ""
    · rw [if_pos h0] at ht
      exact pbLoop_sizes d (b :: rest) t ht
    · rw [if_neg h0] at ht
      simp only [List.mem_cons] at ht
      rcases ht with h | h
      · simp [h]
      · exact pbLoop_sizes d ((b :: rest).erase
          (bpGo d a b (get_partnership_count d a b) rest)) t h
termination_by l => l.length
decreasing_by
  · simp
  · have h := List.length_erase_le
      (bpGo d a b (get_partnership_count d a b) rest) (b :: rest)
    simp at h ⊢
    omega

theorem pbLoop_length (d : String × String → Option Partnership) :
    ∀ (l : List String), "" ∉ l → (pbLoop d l).length = l.length / 2
  | [] => by simp [pbLoop, pbLoopF_nil]
  | [a] => by simp [pbLoop, pbLoopF_singleton]
  | a :: b :: rest => by
    intro hno
    have hmem := bpGo_mem_tail d a b rest
    have h0 : ¬ bpGo d a b (get_partnership_count d a b) rest = "" := by
      intro hc
      rw [hc] at hmem
      exact hno (List.mem_cons_of_mem a hmem)
    have herase : ((b :: rest).erase
        (bpGo d a b (get_partnership_count d a b) rest)).length =
        rest.length := by
      rw [List.length_erase_of_mem hmem]
      simp
    have hno' : "" ∉ (b :: rest).erase
        (bpGo d a b (get_partnership_count d a b) rest) := by
      intro hc
      exact hno (List.mem_cons_of_mem a (List.mem_of_mem_erase hc))
    rw [pbLoop_cons_eq, if_neg h0]
    simp only [List.length_cons,
      pbLoop_length d ((b :: rest).erase
        (bpGo d a b (get_partnership_count d a b) rest)) hno', herase]
    omega
termination_by l => l.length
decreasing_by
  have h := List.length_erase_le
    (bpGo d a b (get_partnership_count d a b) rest) (b :: rest)
  simp at h ⊢
  omega

theorem pbLoop_flatten_perm (d : String × String → Option Partnership) :
    ∀ (l : List String), l.length % 2 = 0 → "" ∉ l →
      ((pbLoop d l).flatten).Perm l
  | [] => by simp [pbLoop, pbLoopF_nil]
  | [a] => by
    intro hev hno
    simp at hev
  | a :: b :: rest => by
    intro hev hno
    have hmem := bpGo_mem_tail d a b rest
    have h0 : ¬ bpGo d a b (get_partnership_count d a b) rest = "" := by
      intro hc
      rw [hc] at hmem
      exact hno (List.mem_cons_of_mem a hmem)
    have herase : ((b :: rest).erase
        (bpGo d a b (get_partnership_count d a b) rest)).length =
        rest.length := by
      rw [List.length_erase_of_mem hmem]
      simp
    have hev' : ((b :: rest).erase
        (bpGo d a b (get_partnership_count d a b) rest)).length % 2 = 0 := by
      rw [herase]
      simp only [List.length_cons] at hev
      omega
    have hno' : "" ∉ (b :: rest).erase
        (bpGo d a b (get_partnership_count d a b) rest) := by
      intro hc
      exact hno (List.mem_cons_of_mem a (List.mem_of_mem_erase hc))
    rw [pbLoop_cons_eq, if_neg h0]
    simp only [List.flatten_cons, List.cons_append, List.nil_append]
    refine List.Perm.cons a ?_
    refine ((pbLoop_flatten_perm d ((b :: rest).erase
      (bpGo d a b (get_partnership_count d a b) rest)) hev' hno').cons
        _).trans ?_
    exact (List.perm_cons_erase hmem).symm
termination_by l => l.length
decreasing_by
  have h := List.length_erase_le
    (bpGo d a b (get_partnership_count d a b) rest) (b :: rest)
  simp at h ⊢
  omega

/-! ### The scan in `partnership_balanced_teams` picks the first pool
element attaining the minimum partnership count -/

theorem minOfList_mem : ∀ (xs : List Nat) (m : Nat),
    minOfList xs = some m → m ∈ xs
  | [], m => by simp [minOfList]
  | x :: xs, m => by
    intro h
    simp only [minOfList] at h
    cases hxs : minOfList xs with
    | none =>
      rw [hxs] at h
      simp only [Option.some.injEq] at h
      simp [← h]
    | some m' =>
      rw [hxs] at h
      simp only [Option.some.injEq] at h
      have hm' := minOfList_mem xs m' hxs
      rcases Nat.le_total x m' with hle | hle
      · have : m = x := by omega
        simp [this]
      · have : m = m' := by omega
        right
        rw [this]
        exact hm'

theorem find?_of_minOfList (f : String → Nat) (l : List String) (m : Nat)
    (h : minOfList (l.map f) = some m) :
    ∃ y, l.find? (fun b => f b = m) = some y := by
  have hm := minOfList_mem (l.map f) m h
  simp only [List.mem_map] at hm
  obtain ⟨b, hb, hfb⟩ := hm
  have : (l.find? (fun b => f b = m)).isSome = true := by
    rw [List.find?_isSome]
    exact ⟨b, hb, by simp [hfb]⟩
  exact Option.isSome_iff_exists.mp this

theorem bpGo_spec (d : String × String → Option Partnership) (a : String) :
    ∀ (l : List String) (best : String),
      bpGo d a best (get_partnership_count d a best) l =
        match minOfList (l.map (get_partnership_count d a)) with
        | none => best
        | some m =>
          if m < get_partnership_count d a best then
            (l.find? (fun b => get_partnership_count d a b = m)).getD best
          else best
  | [], best => by simp [bpGo, minOfList]
  | b :: rest, best => by
    have ihb := bpGo_spec d a rest b
    have ihbest := bpGo_spec d a rest best
    simp only [bpGo, List.map_cons, minOfList]
    cases hrest : minOfList (rest.map (get_partnership_count d a)) with
    | none =>
      rw [hrest] at ihb ihbest
      simp only at ihb ihbest
      dsimp only
      by_cases hb : get_partnership_count d a b < get_partnership_count d a best
      · rw [if_pos hb, ihb, if_pos hb, List.find?_cons_of_pos _ (by simp)]
        rfl
      · rw [if_neg hb, ihbest, if_neg hb]
    | some m' =>
      rw [hrest] at ihb ihbest
      simp only at ihb ihbest
      dsimp only
      obtain ⟨y, hy⟩ := find?_of_minOfList (get_partnership_count d a) rest m' hrest
      by_cases hb : get_partnership_count d a b < get_partnership_count d a best
      · rw [if_pos hb, ihb]
        by_cases hm : m' < get_partnership_count d a b
        · rw [if_pos hm]
          have hmin : min (get_partnership_count d a b) m' = m' := by omega
          rw [hmin, if_pos (by omega),
            List.find?_cons_of_neg _ (by simp; omega), hy]
          rfl
        · rw [if_neg hm]
          have hmin : min (get_partnership_count d a b) m' =
              get_partnership_count d a b := by omega
          rw [hmin, if_pos hb, List.find?_cons_of_pos _ (by simp)]
          rfl
      · rw [if_neg hb, ihbest]
        by_cases hm : m' < get_partnership_count d a best
        · rw [if_pos hm]
          have hmin : min (get_partnership_count d a b) m' = m' := by omega
          rw [hmin, if_pos (by omega),
            List.find?_cons_of_neg _ (by simp; omega), hy]
        · rw [if_neg hm]
          have hnot : ¬ min (get_partnership_count d a b) m' <
              get_partnership_count d a best := by omega
          rw [if_neg hnot]

theorem bestPartner_eq_amended (d : String × String → Option Partnership)
    (a b : String) (rest : List String) :
    amendedBestPartner d a (b :: rest) =
      some (bpGo d a b (get_partnership_count d a b) rest) := by
  have hspec := bpGo_spec d a rest b
  unfold amendedBestPartner
  simp only [List.map_cons, minOfList]
  cases hrest : minOfList (rest.map (get_partnership_count d a)) with
  | none =>
    rw [hrest] at hspec
    simp only at hspec
    dsimp only
    rw [hspec, List.find?_cons_of_pos _ (by simp)]
  | some m' =>
    rw [hrest] at hspec
    simp only at hspec
    dsimp only
    obtain ⟨y, hy⟩ := find?_of_minOfList (get_partnership_count d a) rest m' hrest
    by_cases hm : m' < get_partnership_count d a b
    · have hmin : min (get_partnership_count d a b) m' = m' := by omega
      rw [hmin, hspec, if_pos hm,
        List.find?_cons_of_neg _ (by simp; omega), hy]
      simp [hy]
    · have hmin : min (get_partnership_count d a b) m' =
          get_partnership_count d a b := by omega
      rw [hmin, hspec, if_neg hm, List.find?_cons_of_pos _ (by simp)]

theorem amendedLoop_cons_eq (d : String × String → Option Partnership)
    (a b : String) (rest : List String) :
    amendedLoop d (a :: b :: rest) =
      match amendedBestPartner d a (b :: rest) with
      | none => []
      | some best =>
        if best = "" then amendedLoop d (b :: rest)
        else [a, best] :: amendedLoop d ((b :: rest).erase best) := by
  rw [amendedLoop]

theorem pbLoop_eq_amendedLoop (d : String × String → Option Partnership) :
    ∀ (l : List String), pbLoop d l = amendedLoop d l
  | [] => by simp [pbLoop, pbLoopF_nil, amendedLoop]
  | [a] => by simp [pbLoop, pbLoopF_singleton, amendedLoop]
  | a :: b :: rest => by
    rw [pbLoop_cons_eq, amendedLoop_cons_eq, bestPartner_eq_amended]
    dsimp only
    by_cases h0 : bpGo d a b (get_partnership_count d a b) rest = ""
    · rw [if_pos h0, if_pos h0]
      exact pbLoop_eq_amendedLoop d (b :: rest)
    · rw [if_neg h0, if_neg h0]
      congr 1
      exact pbLoop_eq_amendedLoop d ((b :: rest).erase
        (bpGo d a b (get_partnership_count d a b) rest))
termination_by l => l.length
decreasing_by
  · simp
  · have h := List.length_erase_le
      (bpGo d a b (get_partnership_count d a b) rest) (b :: rest)
    simp at h ⊢
    omega

/-! ### Case analysis of `generate_teams` -/

theorem generate_teams_ok_shape (players : List Player)
    (partnerships : List Partnership) (shuffled : List String)
    (player_ids : List String) (algorithm : String)
    (ts : List (List String))
    (h : generate_teams players partnerships shuffled player_ids algorithm =
      Except.ok ts) :
    2 ≤ player_ids.length ∧ player_ids.length % 2 = 0 ∧
      (ts = pairUp shuffled ∨
        ts = pairExtremes (sortDesc
          (fun pid => ((lookupPlayer players pid).map Player.skill_level).getD 0)
          player_ids) ∨
        ts = pairExtremes (sortDesc
          (fun pid => ((lookupPlayer players pid).map Player.win_rate).getD 0)
          player_ids) ∨
        ts = pbLoop (build_partnership_dict partnerships) player_ids) := by
  unfold generate_teams at h
  unfold random_teams skill_balanced_teams partnership_balanced_teams
    win_rate_balanced_teams at h
  split_ifs at h <;> simp_all

theorem generate_teams_sizes (players : List Player)
    (partnerships : List Partnership) (shuffled : List String)
    (player_ids : List String) (algorithm : String)
    (ts : List (List String))
    (h : generate_teams players partnerships shuffled player_ids algorithm =
      Except.ok ts) :
    ∀ t ∈ ts, t.length = 2 := by
  obtain ⟨-, -, hs | hs | hs | hs⟩ :=
    generate_teams_ok_shape players partnerships shuffled player_ids
      algorithm ts h
  · exact hs ▸ pairUp_sizes shuffled
  · exact hs ▸ pairExtremes_sizes _
  · exact hs ▸ pairExtremes_sizes _
  · exact hs ▸ pbLoop_sizes _ _

theorem generate_teams_count (players : List Player)
    (partnerships : List Partnership) (shuffled : List String)
    (player_ids : List String) (algorithm : String)
    (ts : List (List String))
    (hno : "" ∉ player_ids) (hsh : shuffled.Perm player_ids)
    (h : generate_teams players partnerships shuffled player_ids algorithm =
      Except.ok ts) :
    ts.length = player_ids.length / 2 := by
  obtain ⟨-, -, hs | hs | hs | hs⟩ :=
    generate_teams_ok_shape players partnerships shuffled player_ids
      algorithm ts h
  · rw [hs, pairUp_length, hsh.length_eq]
  · rw [hs, pairExtremes_length, sortDesc_length]
  · rw [hs, pairExtremes_length, sortDesc_length]
  · rw [hs, pbLoop_length _ _ hno]

theorem generate_teams_flatten_perm (players : List Player)
    (partnerships : List Partnership) (shuffled : List String)
    (player_ids : List String) (algorithm : String)
    (ts : List (List String))
    (hno : "" ∉ player_ids) (hsh : shuffled.Perm player_ids)
    (h : generate_teams players partnerships shuffled player_ids algorithm =
      Except.ok ts) :
    (ts.flatten).Perm player_ids := by
  obtain ⟨-, hev, hs | hs | hs | hs⟩ :=
    generate_teams_ok_shape players partnerships shuffled player_ids
      algorithm ts h
  · rw [hs, pairUp_flatten shuffled (by rw [hsh.length_eq]; exact hev)]
    exact hsh
  · rw [hs]
    refine (pairExtremes_flatten_perm _ ?_).trans (sortDesc_perm _ _)
    rw [sortDesc_length]
    exact hev
  · rw [hs]
    refine (pairExtremes_flatten_perm _ ?_).trans (sortDesc_perm _ _)
    rw [sortDesc_length]
    exact hev
  · rw [hs]
    exact pbLoop_flatten_perm _ _ hev hno

theorem generate_teams_error_small (players : List Player)
    (partnerships : List Partnership) (shuffled : List String)
    (player_ids : List String) (algorithm : String)
    (h : player_ids.length < 2) :
    generate_teams players partnerships shuffled player_ids algorithm =
      Except.error "ValueError: Need at least 2 players to generate teams" := by
  unfold generate_teams
  rw [if_pos h]

theorem generate_teams_error_odd (players : List Player)
    (partnerships : List Partnership) (shuffled : List String)
    (player_ids : List String) (algorithm : String)
    (h : player_ids.length % 2 = 1) :
    ∃ e, generate_teams players partnerships shuffled player_ids algorithm =
      Except.error e := by
  unfold generate_teams
  by_cases h2 : player_ids.length < 2
  · rw [if_pos h2]
    exact ⟨_, rfl⟩
  · rw [if_neg h2, if_pos (by omega)]
    exact ⟨_, rfl⟩

theorem generate_teams_missing_skill (players : List Player)
    (partnerships : List Partnership) (shuffled : List String)
    (player_ids : List String)
    (h2 : 2 ≤ player_ids.length) (hev : player_ids.length % 2 = 0)
    (hmiss : ∃ pid ∈ player_ids, lookupPlayer players pid = none) :
    generate_teams players partnerships shuffled player_ids "skill_balanced" =
      Except.error "KeyError" := by
  unfold generate_teams skill_balanced_teams
  rw [if_neg (by omega), if_neg (by omega), if_neg (by decide),
    if_pos rfl, if_neg (by omega), if_pos ?_]
  rw [List.any_eq_true]
  obtain ⟨pid, hpid, hl⟩ := hmiss
  exact ⟨pid, hpid, by simp [hl]⟩

theorem generate_teams_missing_win_rate (players : List Player)
    (partnerships : List Partnership) (shuffled : List String)
    (player_ids : List String)
    (h2 : 2 ≤ player_ids.length) (hev : player_ids.length % 2 = 0)
    (hmiss : ∃ pid ∈ player_ids, lookupPlayer players pid = none) :
    generate_teams players partnerships shuffled player_ids
      "win_rate_balanced" = Except.error "KeyError" := by
  unfold generate_teams win_rate_balanced_teams
  rw [if_neg (by omega), if_neg (by omega), if_neg (by decide),
    if_neg (by decide), if_neg (by decide), if_pos rfl, if_neg (by omega),
    if_pos ?_]
  rw [List.any_eq_true]
  obtain ⟨pid, hpid, hl⟩ := hmiss
  exact ⟨pid, hpid, by simp [hl]⟩

theorem generate_teams_partnership_eq (players : List Player)
    (partnerships : List Partnership) (shuffled : List String)
    (player_ids : List String)
    (h2 : 2 ≤ player_ids.length) (hev : player_ids.length % 2 = 0) :
    generate_teams players partnerships shuffled player_ids
        "partnership_balanced" =
      Except.ok (pbLoop (build_partnership_dict partnerships) player_ids) := by
  unfold generate_teams partnership_balanced_teams
  rw [if_neg (by omega), if_neg (by omega), if_neg (by decide),
    if_neg (by decide), if_pos rfl, if_neg (by omega)]

theorem generate_teams_random_eq (players : List Player)
    (partnerships : List Partnership) (shuffled : List String)
    (player_ids : List String)
    (h2 : 2 ≤ player_ids.length) (hev : player_ids.length % 2 = 0) :
    generate_teams players partnerships shuffled player_ids "random" =
      Except.ok (pairUp shuffled) := by
  unfold generate_teams random_teams
  rw [if_neg (by omega), if_neg (by omega), if_pos rfl, if_neg (by omega)]

/-! ### Claim theorems -/

/-- C5: for every partnership index built from any list of Partnership
records (including duplicate or asymmetric entries), `get_partnership_count`
is symmetric in its two player arguments, returns the stored
`times_together` when the pair is in the index and `0` otherwise, and is a
total function (it never raises). -/
theorem partnership_count_symmetric_and_total
    (partnerships : List Partnership) (a b : String) :
    get_partnership_count (build_partnership_dict partnerships) a b =
      get_partnership_count (build_partnership_dict partnerships) b a ∧
    get_partnership_count (build_partnership_dict partnerships) a b =
      ((build_partnership_dict partnerships (a, b)).map
        Partnership.times_together).getD 0 := by
  constructor
  · unfold get_partnership_count
    rw [build_partnership_dict_swap]
  · unfold get_partnership_count
    cases build_partnership_dict partnerships (a, b) <;> rfl

/-- C10: the index never sums or merges counts; for any pair the stored
record is exactly the last input record about that unordered pair (in either
orientation), so `get_partnership_count` returns that record's
`times_together` (and `0` when no record matches). -/
theorem partnership_count_last_record_wins
    (partnerships : List Partnership) (a b : String) :
    get_partnership_count (build_partnership_dict partnerships) a b =
      ((partnerships.reverse.find? (matchesPair a b)).map
        Partnership.times_together).getD 0 := by
  unfold get_partnership_count
  rw [build_partnership_dict_lookup]
  cases partnerships.reverse.find? (matchesPair a b) <;> rfl

/-- C6: on the roster `[A(skill 9), B(skill 1), C(skill 5), D(skill 5)]` the
`skill_balanced` strategy returns the teams `[A, B]` and `[C, D]`: highest
with lowest, the two middles together. -/
theorem skill_balanced_scenario1 :
    generate_teams
      [⟨"A", 9, 0, 0⟩, ⟨"B", 1, 0, 0⟩, ⟨"C", 5, 0, 0⟩, ⟨"D", 5, 0, 0⟩]
      [] [] ["A", "B", "C", "D"] "skill_balanced" =
      Except.ok [["A", "B"], ["C", "D"]] := by rfl

/-- C8: the balance scorer on the empty partition returns all four metrics
equal to zero and raises no exception, for every player list and partnership
index. -/
theorem balance_score_empty_partition (players : List Player)
    (d : String × String → Option Partnership) :
    calculate_team_balance_score players d [] =
      Except.ok ⟨0, 0, 0, 0⟩ := by rfl

/-- C3 counterexample: on the roster `[a, b, c, d]` with partnership history
`count(a,c) = count(a,d) = 1`, the source's `partnership_balanced_teams`
pairs `a` with `b` (it seeds a team and immediately completes it), while the
specification's round-robin reference procedure seeds both teams first and
returns `[[a, c], [b, d]]`; the two partitions differ. -/
theorem partnership_balanced_differs_from_spec_reference :
    partnership_balanced_teams
        (build_partnership_dict
          [⟨"a", "c", 1, 0⟩, ⟨"a", "d", 1, 0⟩])
        ["a", "b", "c", "d"] = Except.ok [["a", "b"], ["c", "d"]] ∧
    specPartnershipReference
        (build_partnership_dict
          [⟨"a", "c", 1, 0⟩, ⟨"a", "d", 1, 0⟩])
        2 ["a", "b", "c", "d"] = [["a", "c"], ["b", "d"]] ∧
    ([["a", "b"], ["c", "d"]] : List (List String)) ≠
      [["a", "c"], ["b", "d"]] := by
  exact ⟨rfl, rfl, by decide⟩

/-- C3 amended: `partnership_balanced_teams` builds its 2-player teams
sequentially, not round-robin: each team pops the first remaining pool
player as seed and adds the first remaining player attaining the minimum
partnership count with that seed (ties broken by pool order), skipping the
pair when the chosen partner is the empty string. -/
theorem partnership_balanced_eq_amended_greedy
    (d : String × String → Option Partnership) (player_ids : List String) :
    partnership_balanced_teams d player_ids =
      amendedPartnershipTeams d player_ids := by
  unfold partnership_balanced_teams amendedPartnershipTeams
  rw [pbLoop_eq_amendedLoop]

/-- C1 counterexample: a 6-player roster yields 3 teams (the claim's policy
requires 2 for 4-7 players), and a 2-player roster is accepted with 1 team
(the claim requires a 'need at least 4 players' error). -/
theorem team_count_policy_counterexample :
    generate_teams [] [] [] ["a", "b", "c", "d", "e", "f"]
        "partnership_balanced" =
      Except.ok [["a", "b"], ["c", "d"], ["e", "f"]] ∧
    ([["a", "b"], ["c", "d"], ["e", "f"]] : List (List String)).length ≠ 2 ∧
    generate_teams [] [] [] ["p", "q"] "partnership_balanced" =
      Except.ok [["p", "q"]] := ⟨rfl, by decide, rfl⟩

/-- C1 amended: `generate_teams` rejects rosters of fewer than 2 players and
odd-size rosters, and every accepted roster yields exactly `n / 2` teams
(for `partnership_balanced` provided no roster id is the empty string, and
for `random` modelling the shuffle as a permutation of the roster); there is
no 4-player minimum and no 2-vs-4 team-count table. -/
theorem generate_teams_size_policy :
    (∀ (players : List Player) (partnerships : List Partnership)
        (shuffled ids : List String) (alg : String),
      ids.length < 2 →
      ∃ e, generate_teams players partnerships shuffled ids alg =
        Except.error e) ∧
    (∀ (players : List Player) (partnerships : List Partnership)
        (shuffled ids : List String) (alg : String),
      ids.length % 2 = 1 →
      ∃ e, generate_teams players partnerships shuffled ids alg =
        Except.error e) ∧
    (∀ (players : List Player) (partnerships : List Partnership)
        (shuffled ids : List String) (alg : String)
        (ts : List (List String)),
      "" ∉ ids → shuffled.Perm ids →
      generate_teams players partnerships shuffled ids alg = Except.ok ts →
      ts.length = ids.length / 2) := by
  refine ⟨fun ps prt sh ids alg h => ⟨_, generate_teams_error_small ps prt sh ids alg h⟩,
    fun ps prt sh ids alg h => generate_teams_error_odd ps prt sh ids alg h,
    fun ps prt sh ids alg ts hno hsh h =>
      generate_teams_count ps prt sh ids alg ts hno hsh h⟩

/-- C1 witness: a 1-player roster and a 3-player roster are rejected, and an
accepted 4-player roster yields 2 teams. -/
theorem generate_teams_size_policy_witness :
    (∃ e, generate_teams [] [] [] ["x"] "random" = Except.error e) ∧
    (∃ e, generate_teams [] [] [] ["x", "y", "z"] "random" =
      Except.error e) ∧
    ([["a", "b"], ["c", "d"]] : List (List String)).length =
      (["a", "b", "c", "d"] : List String).length / 2 := by
  refine ⟨generate_teams_size_policy.1 [] [] [] ["x"] "random" (by decide),
    generate_teams_size_policy.2.1 [] [] [] ["x", "y", "z"] "random" (by decide),
    generate_teams_size_policy.2.2 [] [] ["a", "b", "c", "d"]
      ["a", "b", "c", "d"] "random" [["a", "b"], ["c", "d"]] (by decide)
      (List.Perm.refl _) (by rfl)⟩

/-- C2 counterexample: the roster `["x", ""]` of two distinct ids is accepted
by `generate_teams` under `partnership_balanced`, yet the result is the empty
partition: `"x"` is silently dropped (the Python truthiness test
`if best_partner:` is falsy on the empty-string id). -/
theorem partition_completeness_counterexample :
    generate_teams [] [] [] ["x", ""] "partnership_balanced" =
      Except.ok ([] : List (List String)) ∧
    ¬ (([] : List (List String)).flatten).Perm ["x", ""] := ⟨rfl, by decide⟩

/-- C2 amended: for every roster of distinct, non-empty player ids accepted
without error (shuffle modelled as a permutation), and for each strategy,
the multiset union of the returned teams equals the roster. -/
theorem generate_teams_partition_complete :
    ∀ (players : List Player) (partnerships : List Partnership)
      (shuffled ids : List String) (alg : String) (ts : List (List String)),
      ids.Nodup → "" ∉ ids → shuffled.Perm ids →
      generate_teams players partnerships shuffled ids alg = Except.ok ts →
      (ts.flatten).Perm ids :=
  fun ps prt sh ids alg ts _ hno hsh h =>
    generate_teams_flatten_perm ps prt sh ids alg ts hno hsh h

/-- C2 witness: a concrete `skill_balanced` run whose teams flatten to a
permutation of the roster. -/
theorem generate_teams_partition_complete_witness :
    (([["A", "D"], ["B", "C"]] : List (List String)).flatten).Perm
      ["A", "B", "C", "D"] :=
  generate_teams_partition_complete
    [⟨"A", 9, 0, 0⟩, ⟨"B", 5, 0, 0⟩, ⟨"C", 5, 0, 0⟩, ⟨"D", 1, 0, 0⟩] []
    ["A", "B", "C", "D"] ["A", "B", "C", "D"] "skill_balanced"
    [["A", "D"], ["B", "C"]] (by decide) (by decide) (List.Perm.refl _)
    (by rfl)

/-- C4 counterexample: with an empty player snapshot, the roster
`["u", "v"]` of unknown ids is accepted by `generate_teams` under the
recognized strategy `partnership_balanced` and returned as a partition — no
error is raised. -/
theorem unknown_id_counterexample :
    generate_teams [] [] [] ["u", "v"] "partnership_balanced" =
      Except.ok [["u", "v"]] ∧
    lookupPlayer [] "u" = none := ⟨rfl, rfl⟩

/-- C4 amended: only the two sort-based strategies consult the player
snapshot — `skill_balanced` and `win_rate_balanced` raise `KeyError` when a
roster id is unknown, while `random` and `partnership_balanced` accept any
(even, length ≥ 2) roster without error regardless of the snapshot, and
their partitions contain every roster id, unknown ones included — for
`random` with the shuffle modelled as a permutation of the roster, for
`partnership_balanced` provided no roster id is the empty string. -/
theorem unknown_id_behavior :
    (∀ (players : List Player) (partnerships : List Partnership)
        (shuffled ids : List String),
      2 ≤ ids.length → ids.length % 2 = 0 →
      (∃ pid ∈ ids, lookupPlayer players pid = none) →
      generate_teams players partnerships shuffled ids "skill_balanced" =
          Except.error "KeyError" ∧
        generate_teams players partnerships shuffled ids
          "win_rate_balanced" = Except.error "KeyError") ∧
    (∀ (players : List Player) (partnerships : List Partnership)
        (shuffled ids : List String),
      2 ≤ ids.length → ids.length % 2 = 0 →
      generate_teams players partnerships shuffled ids "random" =
          Except.ok (pairUp shuffled) ∧
        generate_teams players partnerships shuffled ids
          "partnership_balanced" =
          Except.ok (pbLoop (build_partnership_dict partnerships) ids)) ∧
    (∀ (players : List Player) (partnerships : List Partnership)
        (shuffled ids : List String) (ts : List (List String)),
      shuffled.Perm ids →
      generate_teams players partnerships shuffled ids "random" =
          Except.ok ts →
      ∀ pid ∈ ids, pid ∈ ts.flatten) ∧
    (∀ (players : List Player) (partnerships : List Partnership)
        (shuffled ids : List String) (ts : List (List String)),
      "" ∉ ids →
      generate_teams players partnerships shuffled ids
          "partnership_balanced" = Except.ok ts →
      ∀ pid ∈ ids, pid ∈ ts.flatten) := by
  refine ⟨?_, ?_, ?_, ?_⟩
  · intro ps prt sh ids h2 hev hmiss
    exact ⟨generate_teams_missing_skill ps prt sh ids h2 hev hmiss,
      generate_teams_missing_win_rate ps prt sh ids h2 hev hmiss⟩
  · intro ps prt sh ids h2 hev
    exact ⟨generate_teams_random_eq ps prt sh ids h2 hev,
      generate_teams_partnership_eq ps prt sh ids h2 hev⟩
  · intro ps prt sh ids ts hsh h pid hpid
    obtain ⟨h2, hev, -⟩ :=
      generate_teams_ok_shape ps prt sh ids "random" ts h
    rw [generate_teams_random_eq ps prt sh ids h2 hev] at h
    have hts : ts = pairUp sh := by
      cases h
      rfl
    rw [hts, pairUp_flatten sh (by rw [hsh.length_eq]; exact hev)]
    exact hsh.mem_iff.mpr hpid
  · intro ps prt sh ids ts hno h pid hpid
    obtain ⟨h2, hev, -⟩ :=
      generate_teams_ok_shape ps prt sh ids "partnership_balanced" ts h
    rw [generate_teams_partnership_eq ps prt sh ids h2 hev] at h
    have hts : ts = pbLoop (build_partnership_dict prt) ids := by
      cases h
      rfl
    rw [hts]
    exact ((pbLoop_flatten_perm (build_partnership_dict prt) ids hev
      hno).mem_iff).mpr hpid

/-- C4 witness: with the empty snapshot, the roster `["u", "v"]` makes the
sort-based strategies error, while `random` and `partnership_balanced`
return partitions without error, each containing the unknown id `"u"`. -/
theorem unknown_id_behavior_witness :
    (generate_teams [] [] [] ["u", "v"] "skill_balanced" =
        Except.error "KeyError" ∧
      generate_teams [] [] [] ["u", "v"] "win_rate_balanced" =
        Except.error "KeyError") ∧
    (generate_teams [] [] ["v", "u"] ["u", "v"] "random" =
        Except.ok (pairUp ["v", "u"]) ∧
      generate_teams [] [] ["v", "u"] ["u", "v"] "partnership_balanced" =
        Except.ok (pbLoop (build_partnership_dict []) ["u", "v"])) ∧
    "u" ∈ ([["v", "u"]] : List (List String)).flatten ∧
    "u" ∈ ([["u", "v"]] : List (List String)).flatten := by
  refine ⟨unknown_id_behavior.1 [] [] [] ["u", "v"] (by decide) (by decide)
      ⟨"u", by decide, rfl⟩,
    unknown_id_behavior.2.1 [] [] ["v", "u"] ["u", "v"] (by decide)
      (by decide), ?_, ?_⟩
  · exact unknown_id_behavior.2.2.1 [] [] ["v", "u"] ["u", "v"]
      [["v", "u"]] (by decide) (by rfl) "u" (by decide)
  · exact unknown_id_behavior.2.2.2 [] [] ["v", "u"] ["u", "v"]
      [["u", "v"]] (by decide) (by rfl) "u" (by decide)

/-- C7: every partition returned without error has team sizes differing by
at most 1 (in fact every team has exactly 2 members). -/
theorem team_size_balance :
    ∀ (players : List Player) (partnerships : List Partnership)
      (shuffled ids : List String) (alg : String) (ts : List (List String)),
      generate_teams players partnerships shuffled ids alg = Except.ok ts →
      ∀ t1 ∈ ts, ∀ t2 ∈ ts, t1.length ≤ t2.length + 1 := by
  intro ps prt sh ids alg ts h t1 ht1 t2 ht2
  have h1 := generate_teams_sizes ps prt sh ids alg ts h t1 ht1
  have h2 := generate_teams_sizes ps prt sh ids alg ts h t2 ht2
  omega

/-- C7 witness: the two teams of a concrete accepted run have sizes within 1
of each other. -/
theorem team_size_balance_witness :
    (["a", "b"] : List String).length ≤
      (["c", "d"] : List String).length + 1 :=
  team_size_balance [] [] [] ["a", "b", "c", "d"] "partnership_balanced"
    [["a", "b"], ["c", "d"]] (by rfl) ["a", "b"] (by decide) ["c", "d"]
    (by decide)

/-- C9 counterexample: the accepted roster `["y", ""]` yields the empty
partition under `partnership_balanced`, so the number of teams (0) is not
half the roster size (1). -/
theorem team_shape_counterexample :
    generate_teams [] [] [] ["y", ""] "partnership_balanced" =
      Except.ok ([] : List (List String)) ∧
    ([] : List (List String)).length ≠
      (["y", ""] : List String).length / 2 := ⟨rfl, by decide⟩

/-- C9 amended: every returned team has exactly 2 members under every
strategy, and the number of teams equals half the roster size provided no
roster id is the empty string (shuffle modelled as a permutation for
`random`). -/
theorem team_shape_invariant :
    (∀ (players : List Player) (partnerships : List Partnership)
        (shuffled ids : List String) (alg : String)
        (ts : List (List String)),
      generate_teams players partnerships shuffled ids alg = Except.ok ts →
      ∀ t ∈ ts, t.length = 2) ∧
    (∀ (players : List Player) (partnerships : List Partnership)
        (shuffled ids : List String) (alg : String)
        (ts : List (List String)),
      "" ∉ ids → shuffled.Perm ids →
      generate_teams players partnerships shuffled ids alg = Except.ok ts →
      ts.length = ids.length / 2) :=
  ⟨fun ps prt sh ids alg ts h => generate_teams_sizes ps prt sh ids alg ts h,
    fun ps prt sh ids alg ts hno hsh h =>
      generate_teams_count ps prt sh ids alg ts hno hsh h⟩

/-- C9 witness: a concrete accepted run has 2-member teams and team count
equal to half the roster size. -/
theorem team_shape_invariant_witness :
    (["p", "q"] : List String).length = 2 ∧
    ([["p", "q"], ["r", "s"]] : List (List String)).length =
      (["p", "q", "r", "s"] : List String).length / 2 := by
  constructor
  · exact team_shape_invariant.1 [] [] ["p", "q", "r", "s"]
      ["p", "q", "r", "s"] "partnership_balanced" [["p", "q"], ["r", "s"]]
      (by rfl) ["p", "q"] (by decide)
  · exact team_shape_invariant.2 [] [] ["p", "q", "r", "s"]
      ["p", "q", "r", "s"] "partnership_balanced" [["p", "q"], ["r", "s"]]
      (by decide) (List.Perm.refl _) (by rfl)

end Roundnet
